import Mathlib

/-!
Verification of the fitness-tracker rep-counting core.

The Python repository is shallowly embedded below:

* `Analytics`, `play_beep`, `add_feedback`, `add_rep`, `get_stats` embed the
  `SquatAnalytics` class shared by `src/squat_counter.py` and
  `exercises/squat_counter.py` (wall-clock times are threaded explicitly as
  rational numbers; the call to `winsound.Beep` is instrumented by the ghost
  field `beep_times`, which records the times at which the sound was emitted).
* `check_visibility` and `count_squats` embed `SquatCounter.check_visibility`
  and `SquatCounter.count_squats` of `src/squat_counter.py`.  The geometric
  stage of `count_squats` (leg-angle averaging, `np.interp` of the angle onto
  `[90, 180] -> [100, 0]`, and the back/knee form checks) is summarised by the
  `per`, `back_ok` and `knees_ok` fields of `Frame`; the clamp
  `per = max(0, min(100, per))` and everything downstream of it is embedded
  verbatim.  The geometry itself is embedded separately over the reals
  (`calculate_angle`, `back_angle`).
* `ex_process_frame` embeds `SquatCounter.process_frame` of
  `exercises/squat_counter.py` (its `np.interp` over `(140, 180) -> (100, 0)`
  clamps to the endpoint values, hence the `clamp100` on the supplied
  percentage; `back_angle`/`knee_angle` inputs summarise its angle stage).
* `pushup_step` embeds the rep-counting logic of the module-level capture loop
  of `exercises/pushup_counter.py`.
* `atan2`, `calculate_angle`, `findAngle` and `back_angle` embed
  `PoseEstimator.calculate_angle` (identical to `BaseExercise.calculate_angle`),
  `poseDetector.findAngle` and the angle computation of
  `SquatCounter.check_back_angle`, with `math.atan2`/`np.arctan2` modelled by
  the complex argument.
-/

/-- Landmark entry as produced by `PoseEstimator.find_position`:
`[id, cx, cy, lm.visibility]` with integer pixel coordinates. -/
structure Landmark where
  idx : ℕ
  x : ℤ
  y : ℤ
  vis : ℚ
deriving DecidableEq, Inhabited

/-- State of `SquatAnalytics`.  `beep_times` is a ghost field recording each
time at which `winsound.Beep` is actually invoked by `play_beep` (on its
success path); it is written exactly when `last_beep_time` is updated. -/
structure Analytics where
  session_start : Option ℚ
  rep_times : List ℚ
  depths : List ℚ
  form_errors : List Bool
  feedback_messages : List String
  last_beep_time : ℚ
  beep_cooldown : ℚ
  beep_times : List ℚ
deriving DecidableEq

/-- Freshly constructed `SquatAnalytics()`: empty history, `last_beep_time = 0`,
`beep_cooldown = 1.0` second. -/
def initAnalytics : Analytics :=
  { session_start := none, rep_times := [], depths := [], form_errors := [],
    feedback_messages := [], last_beep_time := 0, beep_cooldown := 1,
    beep_times := [] }

/-- Embeds `SquatAnalytics.play_beep` called at wall-clock time `t`: beep only
when `current_time - last_beep_time > beep_cooldown`. -/
def play_beep (t : ℚ) (a : Analytics) : Analytics :=
  if a.beep_cooldown < t - a.last_beep_time then
    { a with last_beep_time := t, beep_times := a.beep_times ++ [t] }
  else a

/-- Embeds `SquatAnalytics.add_feedback`: a non-empty message not already
pending is appended and triggers `play_beep`. -/
def add_feedback (t : ℚ) (msg : String) (a : Analytics) : Analytics :=
  if msg ≠ "" ∧ msg ∉ a.feedback_messages then
    play_beep t { a with feedback_messages := a.feedback_messages ++ [msg] }
  else a

/-- Embeds `SquatAnalytics.clear_feedback`. -/
def clear_feedback (a : Analytics) : Analytics :=
  { a with feedback_messages := [] }

/-- Embeds `SquatAnalytics.start_session` at wall-clock time `t`. -/
def start_session (t : ℚ) (a : Analytics) : Analytics :=
  { a with session_start := some t }

/-- Embeds `SquatAnalytics.add_rep` at wall-clock time `t`. -/
def add_rep (t : ℚ) (depth : ℚ) (form_ok : Bool) (a : Analytics) : Analytics :=
  { a with rep_times := a.rep_times ++ [t], depths := a.depths ++ [depth],
           form_errors := a.form_errors ++ [!form_ok] }

/-- Shape of the statistics dictionary returned by `SquatAnalytics.get_stats`
when at least one rep has been recorded. -/
structure SessionStats where
  total_reps : ℕ
  avg_depth : ℚ
  good_form_percentage : ℚ
  reps_per_min : ℚ
  session_minutes : ℚ
deriving DecidableEq

/-- Embeds `SquatAnalytics.get_stats` evaluated at wall-clock time `now`.  The
Python function returns the empty dict `{}` when `rep_times` is empty and a
populated dict otherwise; this is modelled by `Option`.  (In the
`reps_per_min` branch the Python code indexes `rep_times[-1]` and
`rep_times[0]`, which exist since the branch requires length > 1.) -/
def get_stats (now : ℚ) (a : Analytics) : Option SessionStats :=
  if a.rep_times = [] then none
  else
    let total_reps := a.rep_times.length
    let avg_depth := if a.depths ≠ [] then a.depths.sum / (a.depths.length : ℚ) else 0
    let good_form_percentage :=
      if 0 < total_reps then (1 - (a.form_errors.count true : ℚ) / (total_reps : ℚ)) * 100
      else 100
    let reps_per_min :=
      if 1 < a.rep_times.length then
        ((a.rep_times.length : ℚ) - 1) /
          ((a.rep_times.getLast?.getD 0 - a.rep_times.head?.getD 0) / 60)
      else 0
    let session_minutes :=
      match a.session_start with
      | some s => (now - s) / 60
      | none => 0
    some { total_reps := total_reps, avg_depth := avg_depth,
           good_form_percentage := good_form_percentage,
           reps_per_min := reps_per_min, session_minutes := session_minutes }

/-- Landmark ids required by `SquatCounter` of `src/squat_counter.py`. -/
def required_landmarks : List ℕ := [11, 12, 23, 24, 25, 26, 27, 28, 15, 16]

/-- Embeds `SquatCounter._get_landmark_name`. -/
def landmark_name (i : ℕ) : String :=
  match i with
  | 11 => "left shoulder"
  | 12 => "right shoulder"
  | 15 => "left wrist"
  | 16 => "right wrist"
  | 23 => "left hip"
  | 24 => "right hip"
  | 25 => "left knee"
  | 26 => "right knee"
  | 27 => "left ankle"
  | 28 => "right ankle"
  | _ => "body part " ++ toString i

/-- Embeds `SquatCounter.check_visibility` at wall-clock time `t`: fails when
fewer than 29 landmarks are present, or when some required landmark is out of
range or has visibility below the 0.3 threshold; on failure a feedback message
is accumulated, on success pending feedback is cleared. -/
def check_visibility (t : ℚ) (lm : List Landmark) (a : Analytics) : Bool × Analytics :=
  if lm.length < 29 then
    (false, add_feedback t ("Please ensure full body is visible") a)
  else
    let missing := required_landmarks.filter
      (fun i => decide (lm.length ≤ i ∨ (lm.getD i default).vis < 3/10))
    if missing = [] then (true, clear_feedback a)
    else
      (false, add_feedback t
        ("Adjust position to show: " ++ String.intercalate (", ") (missing.map landmark_name)) a)

/-- Mutable state of the `SquatCounter` object of `src/squat_counter.py`
(direction: 0 standing, 1 squatting). -/
structure CounterState where
  count : ℕ
  direction : ℕ
  prev_per : ℚ
  color : ℕ × ℕ × ℕ
  form_ok : Bool
  analytics : Analytics
deriving DecidableEq

/-- State of a freshly constructed `SquatCounter` whose session starts at
wall-clock time `t`. -/
def initCounter (t : ℚ) : CounterState :=
  { count := 0, direction := 0, prev_per := 0, color := (0, 0, 255),
    form_ok := true, analytics := start_session t initAnalytics }

/-- One input frame for `count_squats`.  `lm_list` is the landmark snapshot;
`per` is the value of `np.interp(angle, [90, 180], [100, 0])` for the averaged
leg angle of this frame (the subsequent clamp to `[0, 100]` is part of
`count_squats` and is embedded there); `back_ok` and `knees_ok` are the
results of `check_back_angle` and `check_knee_alignment` on this frame (the
back-angle geometry itself is embedded as `back_angle` below). -/
structure Frame where
  t : ℚ
  lm_list : List Landmark
  per : ℚ
  back_ok : Bool
  knees_ok : Bool
deriving DecidableEq

/-- Return tuple of `count_squats` / `process_frame` minus the image:
`(percentage, bar, color, form_ok, feedback)`. -/
structure FrameResult where
  per : ℚ
  bar : ℚ
  color : ℕ × ℕ × ℕ
  form_ok : Bool
  feedback : String
deriving DecidableEq

/-- Embeds `per = max(0, min(100, per))`. -/
def clamp100 (p : ℚ) : ℚ := max 0 (min 100 p)

/-- Embeds `SquatCounter.count_squats` of `src/squat_counter.py` on one frame
(drawing calls omitted).  Control flow follows the source line by line:
visibility gate; percentage clamp; form flags and their feedback messages;
`bar = np.interp(per, [0, 100], [650, 100])`, which on the already clamped
percentage equals `650 - 5.5 * per`; the `per >= 80` transition to squatting;
the `per <= 20` transition to standing which increments the count and logs the
rep; `prev_per` update; the feedback loop; and the returned tuple whose
feedback is the most recent pending message, defaulting to the good-form
message. -/
def count_squats (s : CounterState) (f : Frame) : CounterState × FrameResult :=
  match check_visibility f.t f.lm_list s.analytics with
  | (false, a1) =>
      ({ s with analytics := a1 },
       { per := 0, bar := 0, color := (0, 0, 255), form_ok := false,
         feedback := "Adjust position to show all body parts" })
  | (true, a1) =>
      let per := clamp100 f.per
      let form_ok := f.back_ok && f.knees_ok
      let msgs := (if f.back_ok then [] else ["Keep back straight"]) ++
                  (if f.knees_ok then [] else ["Align knees with feet"])
      let bar := 650 - (11/2 : ℚ) * per
      let d1 := if 80 ≤ per ∧ s.direction = 0 then 1 else s.direction
      let c1 := if 80 ≤ per ∧ s.direction = 0 then
                  (if form_ok then (0, 255, 0) else (0, 165, 255))
                else s.color
      let trigger := per ≤ 20 ∧ d1 = 1
      let d2 := if trigger then 0 else d1
      let count2 := if trigger then s.count + 1 else s.count
      let c2 := if trigger then (0, 0, 255) else c1
      let a2 := if trigger then add_rep f.t per form_ok a1 else a1
      let a3 := msgs.foldl (fun a m => add_feedback f.t m a) a2
      let feedback := (a3.feedback_messages.getLast?).getD ("Good form!")
      ({ count := count2, direction := d2, prev_per := per, color := c2,
         form_ok := form_ok, analytics := a3 },
       { per := per, bar := bar, color := c2, form_ok := form_ok, feedback := feedback })

/-- Feeds a sequence of frames through `count_squats`, keeping the state. -/
def runFrames (s : CounterState) (fs : List Frame) : CounterState :=
  fs.foldl (fun s f => (count_squats s f).1) s

/-- Frame was accepted by the visibility gate in state `s`. -/
def squat_visible (s : CounterState) (f : Frame) : Prop :=
  (check_visibility f.t f.lm_list s.analytics).1 = true

instance (s : CounterState) (f : Frame) : Decidable (squat_visible s f) := by
  unfold squat_visible; infer_instance

/-- Mutable counters of the module-level loop of `exercises/pushup_counter.py`
(`count, dir`; `count` advances in half-rep steps). -/
structure PushupState where
  count : ℚ
  dir : ℕ
deriving DecidableEq

/-- Embeds `per = (0 if per < 0 else 100 if per > 100 else per)`. -/
def pushup_clamp (p : ℚ) : ℚ := if p < 0 then 0 else if 100 < p then 100 else p

/-- Embeds `per = -1.25 * angle + 212.5` followed by the clamp, the percentage
mapping of the push-up loop. -/
def pushup_per (angle : ℚ) : ℚ := pushup_clamp (-(5/4) * angle + 425/2)

/-- Embeds the rep-counting block of the push-up capture loop on one frame
whose (pre-clamp) percentage is `p`: at `per >= 95` with `dir = 0` add half a
rep and flip to 1; at `per <= 5` with `dir = 1` add half a rep and flip to 0. -/
def pushup_step (s : PushupState) (p : ℚ) : PushupState :=
  let per := pushup_clamp p
  if 95 ≤ per then (if s.dir = 0 then { count := s.count + 1/2, dir := 1 } else s)
  else if per ≤ 5 then (if s.dir = 1 then { count := s.count + 1/2, dir := 0 } else s)
  else s

/-- Feeds a sequence of percentages through `pushup_step`. -/
def pushup_run (s : PushupState) (ps : List ℚ) : PushupState :=
  ps.foldl pushup_step s

/-- Mutable state of the `SquatCounter` object of
`exercises/squat_counter.py`. -/
structure ExState where
  count : ℚ
  direction : ℕ
  prev_per : ℚ
  form_ok : Bool
  feedback : String
  analytics : Analytics
deriving DecidableEq

/-- State of a freshly constructed `exercises/squat_counter.py` counter whose
session starts at wall-clock time `t`. -/
def initExState (t : ℚ) : ExState :=
  { count := 0, direction := 0, prev_per := 0, form_ok := true,
    feedback := "Start with standing position",
    analytics := start_session t initAnalytics }

/-- One input frame for `ex_process_frame`.  `no_person` is the
`len(lm_list) == 0` test; `per` is the value of
`np.interp(avg_leg_angle, (140, 180), (100, 0))` before endpoint clamping
(the clamp is applied inside); `back_angle` and `knee_angle` are the two form
angles computed via `calculate_angle` on this frame. -/
structure ExFrame where
  t : ℚ
  no_person : Bool
  per : ℚ
  back_angle : ℚ
  knee_angle : ℚ
deriving DecidableEq

/-- Embeds `SquatCounter.process_frame` of `exercises/squat_counter.py`
(drawing omitted): the no-person short circuit; the percentage; the back and
knee form checks with their messages; the `per == 100` / `per == 0` half-rep
transitions; the bar and colour; and, on every successfully processed frame,
`analytics.add_feedback(feedback)` followed by `analytics.add_rep(per,
form_ok)`. -/
def ex_process_frame (s : ExState) (f : ExFrame) : ExState × FrameResult :=
  if f.no_person then
    (s, { per := 0, bar := 0, color := (0, 0, 255), form_ok := false,
          feedback := "No person detected" })
  else
    let per := clamp100 f.per
    let fb1 := if f.back_angle < 160 then ("Keep your back straight") else ("Good form!")
    let form1 := if f.back_angle < 160 then false else true
    let fb2 := if f.knee_angle < 160 then ("Keep your knees behind your toes") else fb1
    let form2 := if f.knee_angle < 160 then false else form1
    let step :=
      if per = 100 then
        (if s.direction = 0 then ((s.count + 1/2 : ℚ), 1) else (s.count, s.direction))
      else if per = 0 then
        (if s.direction = 1 then ((s.count + 1/2 : ℚ), 0) else (s.count, s.direction))
      else (s.count, s.direction)
    let bar := 650 - (11/2 : ℚ) * per
    let color := if form2 then (0, 255, 0) else (0, 0, 255)
    let a1 := add_feedback f.t fb2 s.analytics
    let a2 := add_rep f.t per form2 a1
    ({ count := step.1, direction := step.2, prev_per := s.prev_per,
       form_ok := form2, feedback := fb2, analytics := a2 },
     { per := per, bar := bar, color := color, form_ok := form2, feedback := fb2 })

/-- Feeds a sequence of frames through `ex_process_frame`. -/
def ex_run (s : ExState) (fs : List ExFrame) : ExState :=
  fs.foldl (fun s f => (ex_process_frame s f).1) s

/-- Feeds a sequence of timed messages through `add_feedback`. -/
def processFeedback (a : Analytics) (events : List (ℚ × String)) : Analytics :=
  events.foldl (fun a e => add_feedback e.1 e.2 a) a

/-- Landmark list in which all 29 required slots are present and fully
visible. -/
def goodLM : List Landmark := List.replicate 29 { idx := 0, x := 0, y := 0, vis := 1 }

/-- Fully visible frame with good form and the given time and percentage. -/
def visFrame (t per : ℚ) : Frame :=
  { t := t, lm_list := goodLM, per := per, back_ok := true, knees_ok := true }

/-- Embeds `math.atan2` / `np.arctan2` on exact reals: the argument of the
complex number `x + y*i`, in `(-pi, pi]`. -/
noncomputable def atan2 (y x : ℝ) : ℝ := Complex.arg ((x : ℂ) + (y : ℂ) * Complex.I)

/-- Embeds `PoseEstimator.calculate_angle` (textually identical to
`BaseExercise.calculate_angle`): difference of the two `arctan2` bearings,
converted to degrees, absolute value, folded by `360 - angle` when above
180. -/
noncomputable def calculate_angle (a b c : ℝ × ℝ) : ℝ :=
  let radians := atan2 (c.2 - b.2) (c.1 - b.1) - atan2 (a.2 - b.2) (a.1 - b.1)
  let angle := |radians * 180 / Real.pi|
  if 180 < angle then 360 - angle else angle

/-- Embeds the angle computation of `poseDetector.findAngle` of
`exercises/pushup_counter.py` on the three looked-up points: the signed
difference in degrees, then `360 - angle` when above 180, else negation when
below 0 (note: no second fold after the negation). -/
noncomputable def findAngle (p1 p2 p3 : ℝ × ℝ) : ℝ :=
  let angle := (atan2 (p3.2 - p2.2) (p3.1 - p2.1) - atan2 (p1.2 - p2.2) (p1.1 - p2.1))
      * 180 / Real.pi
  if 180 < angle then 360 - angle else if angle < 0 then -angle else angle

/-- Embeds the angle computed by `SquatCounter.check_back_angle` of
`src/squat_counter.py` from the two shoulder and two hip landmark pixel
positions: midpoints by floor division (Python `//`), then
`abs(np.degrees(np.arctan2(dy, dx)) - 90)` for the shoulder-midpoint minus
hip-midpoint displacement `(dx, dy)`. -/
noncomputable def back_angle (sl sr hl hr : ℤ × ℤ) : ℝ :=
  let scx := Int.fdiv (sl.1 + sr.1) 2
  let scy := Int.fdiv (sl.2 + sr.2) 2
  let hcx := Int.fdiv (hl.1 + hr.1) 2
  let hcy := Int.fdiv (hl.2 + hr.2) 2
  |atan2 ((scy : ℝ) - (hcy : ℝ)) ((scx : ℝ) - (hcx : ℝ)) * 180 / Real.pi - 90|

/-- Pass condition `angle < 15` returned by `SquatCounter.check_back_angle`. -/
def back_angle_ok (sl sr hl hr : ℤ × ℤ) : Prop := back_angle sl sr hl hr < 15

/-- Invariant tying the beep instrumentation together: the cooldown is
constant, consecutive recorded beep times are separated by more than the
cooldown, and `last_beep_time` equals the last recorded beep time (when one
exists). -/
def BeepInv (c : ℚ) (a : Analytics) : Prop :=
  a.beep_cooldown = c ∧
  List.Chain' (fun x y => c < y - x) a.beep_times ∧
  (∀ b, a.beep_times.getLast? = some b → a.last_beep_time = b)

lemma atan2_zero_one : atan2 0 1 = 0 := by
  simp [atan2, Complex.arg_one]

lemma atan2_one_zero : atan2 1 0 = Real.pi / 2 := by
  simp [atan2, Complex.arg_I]

lemma atan2_zero_neg_one : atan2 0 (-1) = Real.pi := by
  simp [atan2, Complex.arg_neg_one]

lemma atan2_neg_one_zero : atan2 (-1) 0 = -(Real.pi / 2) := by
  simp [atan2, Complex.arg_neg_I]

lemma atan2_le_pi (y x : ℝ) : atan2 y x ≤ Real.pi := Complex.arg_le_pi _

lemma neg_pi_lt_atan2 (y x : ℝ) : -Real.pi < atan2 y x := Complex.neg_pi_lt_arg _

lemma clamp100_le_20 (p : ℚ) : clamp100 p ≤ 20 ↔ p ≤ 20 := by
  unfold clamp100
  rw [max_le_iff, min_le_iff]
  constructor
  · rintro ⟨-, h | h⟩
    · linarith
    · exact h
  · intro h
    exact ⟨by norm_num, Or.inr h⟩

lemma le80_clamp100 (p : ℚ) : 80 ≤ clamp100 p ↔ 80 ≤ p := by
  unfold clamp100
  rw [le_max_iff, le_min_iff]
  constructor
  · rintro (h | ⟨-, h⟩)
    · linarith
    · exact h
  · intro h
    exact Or.inr ⟨by norm_num, h⟩

lemma clamp100_eq_100 (p : ℚ) : clamp100 p = 100 ↔ 100 ≤ p := by
  unfold clamp100
  constructor
  · intro h
    rcases max_eq_iff.mp h with ⟨h0, -⟩ | ⟨hm, -⟩
    · norm_num at h0
    · rcases min_eq_iff.mp hm with ⟨-, h1⟩ | ⟨h1, -⟩
      · exact h1
      · exact h1.ge
  · intro h
    rw [min_eq_left h]
    norm_num

lemma clamp100_eq_0 (p : ℚ) : clamp100 p = 0 ↔ p ≤ 0 := by
  unfold clamp100
  rw [max_eq_left_iff, min_le_iff]
  constructor
  · rintro (h | h)
    · linarith
    · exact h
  · intro h
    exact Or.inr h

lemma count_squats_count (s : CounterState) (f : Frame) :
    (count_squats s f).1.count =
      if squat_visible s f ∧ f.per ≤ 20 ∧ s.direction = 1 then s.count + 1 else s.count := by
  rcases h : check_visibility f.t f.lm_list s.analytics with ⟨b, a1⟩
  have hv : squat_visible s f ↔ b = true := by
    unfold squat_visible
    rw [h]
  cases b with
  | false =>
      have hnv : ¬ squat_visible s f := by simp [hv]
      simp [count_squats, h, hnv]
  | true =>
      have hv' : squat_visible s f := hv.mpr rfl
      simp only [count_squats, h]
      simp only [clamp100_le_20, le80_clamp100, hv', true_and]
      by_cases hp : f.per ≤ 20
      · by_cases hd : s.direction = 1
        · simp [hp, hd]
        · have h80 : ¬ (80 : ℚ) ≤ f.per := by linarith
          simp [hp, hd, h80]
      · simp [hp]

lemma count_squats_direction (s : CounterState) (f : Frame) :
    (count_squats s f).1.direction =
      if squat_visible s f then
        (if f.per ≤ 20 ∧ s.direction = 1 then 0
         else if 80 ≤ f.per ∧ s.direction = 0 then 1 else s.direction)
      else s.direction := by
  rcases h : check_visibility f.t f.lm_list s.analytics with ⟨b, a1⟩
  have hv : squat_visible s f ↔ b = true := by
    unfold squat_visible
    rw [h]
  cases b with
  | false =>
      have hnv : ¬ squat_visible s f := by simp [hv]
      simp [count_squats, h, hnv]
  | true =>
      have hv' : squat_visible s f := hv.mpr rfl
      simp only [count_squats, h]
      simp only [clamp100_le_20, le80_clamp100, hv', if_true]
      by_cases hp : f.per ≤ 20
      · have h80 : ¬ (80 : ℚ) ≤ f.per := by linarith
        by_cases hd : s.direction = 1
        · simp [hp, hd, h80]
        · simp [hp, hd, h80]
      · by_cases h80 : (80 : ℚ) ≤ f.per
        · by_cases hd0 : s.direction = 0
          · simp [hp, h80, hd0]
          · simp [hp, h80, hd0]
        · simp [hp, h80]

lemma count_squats_count_mono (s : CounterState) (f : Frame) :
    s.count ≤ (count_squats s f).1.count := by
  rw [count_squats_count]
  split_ifs <;> omega

lemma runFrames_cons (s : CounterState) (f : Frame) (fs : List Frame) :
    runFrames s (f :: fs) = runFrames (count_squats s f).1 fs := rfl

lemma runFrames_count_mono (s : CounterState) (fs : List Frame) :
    s.count ≤ (runFrames s fs).count := by
  induction fs generalizing s with
  | nil => exact le_refl _
  | cons f fs ih =>
      rw [runFrames_cons]
      exact le_trans (count_squats_count_mono s f) (ih _)

lemma runFrames_count_over20 (s : CounterState) (fs : List Frame)
    (h : ∀ f ∈ fs, 20 < f.per) : (runFrames s fs).count = s.count := by
  induction fs generalizing s with
  | nil => rfl
  | cons f fs ih =>
      rw [runFrames_cons]
      have hf := h f (List.mem_cons_self f fs)
      have hstep : (count_squats s f).1.count = s.count := by
        rw [count_squats_count]
        rw [if_neg]
        rintro ⟨-, hp, -⟩
        linarith
      rw [ih _ (fun g hg => h g (List.mem_cons_of_mem f hg)), hstep]

lemma runFrames_keep_standing (s : CounterState) (fs : List Frame)
    (h : ∀ f ∈ fs, f.per < 80) (hd : s.direction ≠ 1) :
    (runFrames s fs).count = s.count ∧ (runFrames s fs).direction = s.direction := by
  induction fs generalizing s with
  | nil => exact ⟨rfl, rfl⟩
  | cons f fs ih =>
      rw [runFrames_cons]
      have hf := h f (List.mem_cons_self f fs)
      have hcount : (count_squats s f).1.count = s.count := by
        rw [count_squats_count]
        rw [if_neg]
        rintro ⟨-, -, hd1⟩
        exact hd hd1
      have hdir : (count_squats s f).1.direction = s.direction := by
        rw [count_squats_direction]
        split_ifs with h1 h2 h3
        · exact absurd h2.2 hd
        · exact absurd h3.1 (by linarith)
        · rfl
        · rfl
      obtain ⟨hc, hdd⟩ := ih (count_squats s f).1
        (fun g hg => h g (List.mem_cons_of_mem f hg))
        (by rw [hdir]; exact hd)
      exact ⟨by rw [hc, hcount], by rw [hdd, hdir]⟩

lemma runFrames_count_under80 (s : CounterState) (fs : List Frame)
    (h : ∀ f ∈ fs, f.per < 80) : (runFrames s fs).count ≤ s.count + 1 := by
  induction fs generalizing s with
  | nil => exact Nat.le_succ s.count
  | cons f fs ih =>
      rw [runFrames_cons]
      have htail : ∀ g ∈ fs, g.per < 80 := fun g hg => h g (List.mem_cons_of_mem f hg)
      by_cases htr : squat_visible s f ∧ f.per ≤ 20 ∧ s.direction = 1
      · have hcount : (count_squats s f).1.count = s.count + 1 := by
          rw [count_squats_count, if_pos htr]
        have hdir : (count_squats s f).1.direction = 0 := by
          rw [count_squats_direction]
          simp [htr.1, htr.2.1, htr.2.2]
        have hkeep := (runFrames_keep_standing (count_squats s f).1 fs htail
          (by rw [hdir]; omega)).1
        rw [hkeep, hcount]
      · have hcount : (count_squats s f).1.count = s.count := by
          rw [count_squats_count, if_neg htr]
        exact le_trans (ih _ htail) (by omega)

lemma pushup_clamp_ge95 (p : ℚ) : 95 ≤ pushup_clamp p ↔ 95 ≤ p := by
  unfold pushup_clamp
  split_ifs with h1 h2 <;> constructor <;> intro h <;> linarith

lemma pushup_clamp_le5 (p : ℚ) : pushup_clamp p ≤ 5 ↔ p ≤ 5 := by
  unfold pushup_clamp
  split_ifs with h1 h2 <;> constructor <;> intro h <;> linarith

lemma pushup_step_count (s : PushupState) (p : ℚ) :
    (pushup_step s p).count =
      if (95 ≤ p ∧ s.dir = 0) ∨ (p ≤ 5 ∧ s.dir = 1) then s.count + 1/2 else s.count := by
  unfold pushup_step
  simp only [pushup_clamp_ge95, pushup_clamp_le5]
  by_cases h95 : (95 : ℚ) ≤ p
  · have h5 : ¬ p ≤ 5 := by linarith
    by_cases hd : s.dir = 0 <;> simp [h95, h5, hd]
  · by_cases h5 : p ≤ 5
    · by_cases hd : s.dir = 1 <;> simp [h95, h5, hd]
    · simp [h95, h5]

lemma pushup_step_dir (s : PushupState) (p : ℚ) :
    (pushup_step s p).dir =
      if 95 ≤ p ∧ s.dir = 0 then 1
      else if p ≤ 5 ∧ s.dir = 1 then 0 else s.dir := by
  unfold pushup_step
  simp only [pushup_clamp_ge95, pushup_clamp_le5]
  by_cases h95 : (95 : ℚ) ≤ p
  · have h5 : ¬ p ≤ 5 := by linarith
    by_cases hd : s.dir = 0 <;> simp [h95, h5, hd]
  · by_cases h5 : p ≤ 5
    · by_cases hd : s.dir = 1 <;> simp [h95, h5, hd]
    · simp [h95, h5]

lemma pushup_step_count_mono (s : PushupState) (p : ℚ) :
    s.count ≤ (pushup_step s p).count := by
  rw [pushup_step_count]
  split_ifs <;> linarith

lemma pushup_run_cons (s : PushupState) (p : ℚ) (ps : List ℚ) :
    pushup_run s (p :: ps) = pushup_run (pushup_step s p) ps := rfl

lemma pushup_run_count_mono (s : PushupState) (ps : List ℚ) :
    s.count ≤ (pushup_run s ps).count := by
  induction ps generalizing s with
  | nil => exact le_refl _
  | cons p ps ih =>
      rw [pushup_run_cons]
      exact le_trans (pushup_step_count_mono s p) (ih _)

lemma ex_run_cons (s : ExState) (f : ExFrame) (fs : List ExFrame) :
    ex_run s (f :: fs) = ex_run (ex_process_frame s f).1 fs := rfl

lemma ex_step_count (s : ExState) (f : ExFrame) :
    (ex_process_frame s f).1.count =
      if f.no_person = false ∧
          ((clamp100 f.per = 100 ∧ s.direction = 0) ∨ (clamp100 f.per = 0 ∧ s.direction = 1))
      then s.count + 1/2 else s.count := by
  cases hnp : f.no_person with
  | true => simp [ex_process_frame, hnp]
  | false =>
      simp only [ex_process_frame, hnp, Bool.false_eq_true, if_false, true_and]
      by_cases h100 : clamp100 f.per = 100
      · have h0 : ¬ clamp100 f.per = 0 := by rw [h100]; norm_num
        by_cases hd : s.direction = 0 <;> simp [h100, h0, hd]
      · by_cases h0 : clamp100 f.per = 0
        · by_cases hd : s.direction = 1 <;> simp [h100, h0, hd]
        · simp [h100, h0]

lemma ex_step_dir (s : ExState) (f : ExFrame) :
    (ex_process_frame s f).1.direction =
      if f.no_person = true then s.direction
      else if clamp100 f.per = 100 ∧ s.direction = 0 then 1
      else if clamp100 f.per = 0 ∧ s.direction = 1 then 0 else s.direction := by
  cases hnp : f.no_person with
  | true => simp [ex_process_frame, hnp]
  | false =>
      simp only [ex_process_frame, hnp, Bool.false_eq_true, if_false]
      by_cases h100 : clamp100 f.per = 100
      · have h0 : ¬ clamp100 f.per = 0 := by rw [h100]; norm_num
        by_cases hd : s.direction = 0 <;> simp [h100, h0, hd]
      · by_cases h0 : clamp100 f.per = 0
        · by_cases hd : s.direction = 1 <;> simp [h100, h0, hd]
        · simp [h100, h0]

lemma ex_keep_not_down (s : ExState) (fs : List ExFrame)
    (h : ∀ f ∈ fs, f.per < 100) (hd : s.direction ≠ 1) :
    (ex_run s fs).count = s.count ∧ (ex_run s fs).direction = s.direction := by
  induction fs generalizing s with
  | nil => exact ⟨rfl, rfl⟩
  | cons f fs ih =>
      rw [ex_run_cons]
      have hf := h f (List.mem_cons_self f fs)
      have h100 : ¬ clamp100 f.per = 100 := by
        rw [clamp100_eq_100]
        linarith
      have hcount : (ex_process_frame s f).1.count = s.count := by
        rw [ex_step_count, if_neg]
        rintro ⟨-, ⟨hc, -⟩ | ⟨-, hd1⟩⟩
        · exact h100 hc
        · exact hd hd1
      have hdir : (ex_process_frame s f).1.direction = s.direction := by
        rw [ex_step_dir]
        split_ifs with h1 h2 h3
        · rfl
        · exact absurd h2.1 h100
        · exact absurd h3.2 hd
        · rfl
      obtain ⟨hc, hdd⟩ := ih (ex_process_frame s f).1
        (fun g hg => h g (List.mem_cons_of_mem f hg))
        (by rw [hdir]; exact hd)
      exact ⟨by rw [hc, hcount], by rw [hdd, hdir]⟩

lemma ex_run_count_under100 (s : ExState) (fs : List ExFrame)
    (h : ∀ f ∈ fs, f.per < 100) : (ex_run s fs).count ≤ s.count + 1/2 := by
  induction fs generalizing s with
  | nil => simp [ex_run]
  | cons f fs ih =>
      rw [ex_run_cons]
      have htail : ∀ g ∈ fs, g.per < 100 := fun g hg => h g (List.mem_cons_of_mem f hg)
      have hf := h f (List.mem_cons_self f fs)
      have h100 : ¬ clamp100 f.per = 100 := by
        rw [clamp100_eq_100]
        linarith
      by_cases htr : f.no_person = false ∧
          ((clamp100 f.per = 100 ∧ s.direction = 0) ∨ (clamp100 f.per = 0 ∧ s.direction = 1))
      · have hcount : (ex_process_frame s f).1.count = s.count + 1/2 := by
          rw [ex_step_count, if_pos htr]
        have hdir : (ex_process_frame s f).1.direction = 0 := by
          rcases htr.2 with ⟨hc, -⟩ | ⟨hc, hd1⟩
          · exact absurd hc h100
          · rw [ex_step_dir, htr.1]
            simp only [Bool.false_eq_true, if_false]
            rw [if_neg (fun hx => h100 hx.1), if_pos ⟨hc, hd1⟩]
        have hkeep := (ex_keep_not_down (ex_process_frame s f).1 fs htail
          (by rw [hdir]; omega)).1
        rw [hkeep, hcount]
      · have hcount : (ex_process_frame s f).1.count = s.count := by
          rw [ex_step_count, if_neg htr]
        exact le_trans (ih _ htail) (by rw [hcount])

lemma ex_keep_not_up (s : ExState) (fs : List ExFrame)
    (h : ∀ f ∈ fs, 0 < f.per) (hd : s.direction ≠ 0) :
    (ex_run s fs).count = s.count ∧ (ex_run s fs).direction = s.direction := by
  induction fs generalizing s with
  | nil => exact ⟨rfl, rfl⟩
  | cons f fs ih =>
      rw [ex_run_cons]
      have hf := h f (List.mem_cons_self f fs)
      have h0 : ¬ clamp100 f.per = 0 := by
        rw [clamp100_eq_0]
        linarith
      have hcount : (ex_process_frame s f).1.count = s.count := by
        rw [ex_step_count, if_neg]
        rintro ⟨-, ⟨-, hd0⟩ | ⟨hc, -⟩⟩
        · exact hd hd0
        · exact h0 hc
      have hdir : (ex_process_frame s f).1.direction = s.direction := by
        rw [ex_step_dir]
        split_ifs with h1 h2 h3
        · rfl
        · exact absurd h2.2 hd
        · exact absurd h3.1 h0
        · rfl
      obtain ⟨hc, hdd⟩ := ih (ex_process_frame s f).1
        (fun g hg => h g (List.mem_cons_of_mem f hg))
        (by rw [hdir]; exact hd)
      exact ⟨by rw [hc, hcount], by rw [hdd, hdir]⟩

lemma ex_run_count_over0 (s : ExState) (fs : List ExFrame)
    (h : ∀ f ∈ fs, 0 < f.per) : (ex_run s fs).count ≤ s.count + 1/2 := by
  induction fs generalizing s with
  | nil => simp [ex_run]
  | cons f fs ih =>
      rw [ex_run_cons]
      have htail : ∀ g ∈ fs, 0 < g.per := fun g hg => h g (List.mem_cons_of_mem f hg)
      have hf := h f (List.mem_cons_self f fs)
      have h0 : ¬ clamp100 f.per = 0 := by
        rw [clamp100_eq_0]
        linarith
      by_cases htr : f.no_person = false ∧
          ((clamp100 f.per = 100 ∧ s.direction = 0) ∨ (clamp100 f.per = 0 ∧ s.direction = 1))
      · have hcount : (ex_process_frame s f).1.count = s.count + 1/2 := by
          rw [ex_step_count, if_pos htr]
        have hdir : (ex_process_frame s f).1.direction = 1 := by
          rcases htr.2 with ⟨hc, hd0⟩ | ⟨hc, -⟩
          · rw [ex_step_dir, htr.1]
            simp only [Bool.false_eq_true, if_false]
            rw [if_pos ⟨hc, hd0⟩]
          · exact absurd hc h0
        have hkeep := (ex_keep_not_up (ex_process_frame s f).1 fs htail
          (by rw [hdir]; omega)).1
        rw [hkeep, hcount]
      · have hcount : (ex_process_frame s f).1.count = s.count := by
          rw [ex_step_count, if_neg htr]
        exact le_trans (ih _ htail) (by rw [hcount])

lemma play_beep_inv (c : ℚ) (t : ℚ) (a : Analytics) (h : BeepInv c a) :
    BeepInv c (play_beep t a) := by
  obtain ⟨hc, hch, hl⟩ := h
  unfold play_beep
  split_ifs with hb
  · refine ⟨hc, ?_, ?_⟩
    · rw [List.chain'_append]
      refine ⟨hch, List.chain'_singleton t, ?_⟩
      intro x hx y hy
      simp only [List.head?_cons, Option.mem_def, Option.some.injEq] at hy
      subst hy
      have hlast : a.last_beep_time = x := hl x hx
      rw [hc] at hb
      linarith
    · intro b hb2
      rw [List.getLast?_append_of_ne_nil _ (by simp)] at hb2
      simp only [List.getLast?_singleton, Option.some.injEq] at hb2
      simp [hb2]
  · exact ⟨hc, hch, hl⟩

lemma add_feedback_inv (c : ℚ) (t : ℚ) (msg : String) (a : Analytics)
    (h : BeepInv c a) : BeepInv c (add_feedback t msg a) := by
  obtain ⟨hc, hch, hl⟩ := h
  unfold add_feedback
  split_ifs with h1
  · exact play_beep_inv c t _ ⟨hc, hch, hl⟩
  · exact ⟨hc, hch, hl⟩

lemma processFeedback_inv (c : ℚ) (a : Analytics) (events : List (ℚ × String))
    (h : BeepInv c a) : BeepInv c (processFeedback a events) := by
  induction events generalizing a with
  | nil => exact h
  | cons e es ih => exact ih _ (add_feedback_inv c e.1 e.2 a h)

lemma initAnalytics_inv : BeepInv 1 initAnalytics := by
  refine ⟨rfl, List.chain'_nil, ?_⟩
  intro b hb
  simp [initAnalytics] at hb

lemma add_feedback_rep_times (t : ℚ) (msg : String) (a : Analytics) :
    (add_feedback t msg a).rep_times = a.rep_times := by
  unfold add_feedback play_beep
  split_ifs <;> rfl

lemma foldl_add_feedback_rep_times (t : ℚ) (msgs : List String) (a : Analytics) :
    (msgs.foldl (fun a m => add_feedback t m a) a).rep_times = a.rep_times := by
  induction msgs generalizing a with
  | nil => rfl
  | cons m ms ih => rw [List.foldl_cons, ih, add_feedback_rep_times]

lemma check_visibility_rep_times (t : ℚ) (lm : List Landmark) (a : Analytics) :
    (check_visibility t lm a).2.rep_times = a.rep_times := by
  simp only [check_visibility]
  split_ifs <;> simp [add_feedback_rep_times, clear_feedback]

lemma count_squats_rep_times (s : CounterState) (f : Frame) :
    (count_squats s f).1.analytics.rep_times =
      if squat_visible s f ∧ f.per ≤ 20 ∧ s.direction = 1
      then s.analytics.rep_times ++ [f.t] else s.analytics.rep_times := by
  rcases h : check_visibility f.t f.lm_list s.analytics with ⟨b, a1⟩
  have ha1 : a1.rep_times = s.analytics.rep_times := by
    have := check_visibility_rep_times f.t f.lm_list s.analytics
    rw [h] at this
    exact this
  have hv : squat_visible s f ↔ b = true := by
    unfold squat_visible
    rw [h]
  cases b with
  | false =>
      have hnv : ¬ squat_visible s f := by simp [hv]
      simp [count_squats, h, hnv, ha1]
  | true =>
      have hv' : squat_visible s f := hv.mpr rfl
      simp only [count_squats, h]
      rw [foldl_add_feedback_rep_times]
      simp only [clamp100_le_20, le80_clamp100, hv', true_and]
      by_cases hp : f.per ≤ 20
      · by_cases hd : s.direction = 1
        · simp [hp, hd, add_rep, ha1]
        · have h80 : ¬ (80 : ℚ) ≤ f.per := by linarith
          simp [hp, hd, h80, ha1]
      · simp [hp, ha1]

lemma runFrames_rep_times_over20 (s : CounterState) (fs : List Frame)
    (h : ∀ f ∈ fs, 20 < f.per) :
    (runFrames s fs).analytics.rep_times = s.analytics.rep_times := by
  induction fs generalizing s with
  | nil => rfl
  | cons f fs ih =>
      rw [runFrames_cons]
      have hf := h f (List.mem_cons_self f fs)
      have hstep : (count_squats s f).1.analytics.rep_times = s.analytics.rep_times := by
        rw [count_squats_rep_times, if_neg]
        rintro ⟨-, hp, -⟩
        linarith
      rw [ih _ (fun g hg => h g (List.mem_cons_of_mem f hg)), hstep]

lemma ex_step_rep_times (s : ExState) (f : ExFrame) :
    (ex_process_frame s f).1.analytics.rep_times =
      if f.no_person = true then s.analytics.rep_times
      else s.analytics.rep_times ++ [f.t] := by
  cases hnp : f.no_person with
  | true => simp [ex_process_frame, hnp]
  | false =>
      simp only [ex_process_frame, hnp, Bool.false_eq_true, if_false]
      simp [add_rep, add_feedback_rep_times]

lemma check_visibility_goodLM (t : ℚ) (a : Analytics) :
    check_visibility t goodLM a = (true, clear_feedback a) := by
  have h1 : ¬ (goodLM.length < 29) := by norm_num [goodLM]
  have h2 : required_landmarks.filter
      (fun i => decide (goodLM.length ≤ i ∨ (goodLM.getD i default).vis < 3/10)) = [] := by
    rw [List.filter_eq_nil_iff]
    intro i hi
    fin_cases hi <;>
      simp only [decide_eq_true_eq, not_or, goodLM, List.getD, List.length_replicate] <;>
      norm_num
  simp only [check_visibility]
  rw [if_neg h1, if_pos h2]

lemma squat_visible_visFrame (s : CounterState) (t per : ℚ) :
    squat_visible s (visFrame t per) := by
  show (check_visibility (visFrame t per).t (visFrame t per).lm_list s.analytics).1 = true
  show (check_visibility t goodLM s.analytics).1 = true
  rw [check_visibility_goodLM]

/-- C1: for every sequence of processed frames the rep counter is
non-decreasing, and it changes only by exactly the configured step — `+1` for
the squat counter, exactly on a qualifying transition (visible frame,
percentage at most 20, direction squatting), and `+1/2` for the push-up
convention, exactly on one of its qualifying threshold transitions; no frame
ever decreases it. -/
theorem claim1_count_monotone_step :
    (∀ s f, (count_squats s f).1.count =
        if squat_visible s f ∧ f.per ≤ 20 ∧ s.direction = 1 then s.count + 1 else s.count)
  ∧ (∀ s fs, s.count ≤ (runFrames s fs).count)
  ∧ (∀ s p, (pushup_step s p).count =
        if (95 ≤ p ∧ s.dir = 0) ∨ (p ≤ 5 ∧ s.dir = 1) then s.count + 1/2 else s.count)
  ∧ (∀ s ps, s.count ≤ (pushup_run s ps).count) :=
  ⟨count_squats_count, runFrames_count_mono, pushup_step_count, pushup_run_count_mono⟩

/-- C2: oscillating around a single threshold without crossing the opposite
one increments the count at most once.  For the `src` squat counter: a
sequence that never reaches the low threshold (all percentages above 20)
never increments the count at all, and a sequence that never reaches the high
threshold (all percentages below 80) increments it at most once.  For the
`exercises` squat counter (thresholds 100 and 0) the two symmetric statements
bound the increase by one half step.  The thresholds form a hysteresis pair
with a margin: a percentage at or below the low threshold is strictly below
the high one. -/
theorem claim2_hysteresis :
    (∀ s fs, (∀ f ∈ fs, (20:ℚ) < f.per) → (runFrames s fs).count = s.count)
  ∧ (∀ s fs, (∀ f ∈ fs, f.per < (80:ℚ)) → (runFrames s fs).count ≤ s.count + 1)
  ∧ (∀ s fs, (∀ f ∈ fs, (0:ℚ) < f.per) → (ex_run s fs).count ≤ s.count + 1/2)
  ∧ (∀ s fs, (∀ f ∈ fs, f.per < (100:ℚ)) → (ex_run s fs).count ≤ s.count + 1/2)
  ∧ (∀ p, clamp100 p ≤ 20 → clamp100 p < 80) :=
  ⟨runFrames_count_over20, runFrames_count_under80, ex_run_count_over0,
   ex_run_count_under100, fun _ h => by linarith⟩

theorem claim2_hysteresis_wit :
    (∀ f ∈ [visFrame 1 21, visFrame 2 19, visFrame 3 21, visFrame 4 19], f.per < (80:ℚ))
  ∧ (runFrames { initCounter 0 with direction := 1 }
        [visFrame 1 21, visFrame 2 19, visFrame 3 21, visFrame 4 19]).count
      ≤ ({ initCounter 0 with direction := 1 } : CounterState).count + 1 :=
  ⟨by decide, claim2_hysteresis.2.1 _ _ (by decide)⟩

/-- C3 (divergence witness): in `exercises/squat_counter.py`,
`analytics.add_rep` runs on every successfully processed frame, so three
mid-range frames (percentage 50, no transition, zero completed reps) leave
three entries in the rep history; the `src/squat_counter.py` counter, by
contrast, appends nothing on such frames. -/
theorem claim3_history_grows_per_frame :
    (ex_run (initExState 0)
        [⟨1, false, 50, 170, 170⟩, ⟨2, false, 50, 170, 170⟩, ⟨3, false, 50, 170, 170⟩]).count = 0
  ∧ (ex_run (initExState 0)
        [⟨1, false, 50, 170, 170⟩, ⟨2, false, 50, 170, 170⟩, ⟨3, false, 50, 170, 170⟩]).analytics.rep_times.length = 3
  ∧ (runFrames (initCounter 0)
        [visFrame 1 50, visFrame 2 50, visFrame 3 50]).analytics.rep_times.length = 0 := by
  have h100 : ¬ clamp100 (50:ℚ) = 100 := by
    rw [clamp100_eq_100]
    norm_num
  have h0 : ¬ clamp100 (50:ℚ) = 0 := by
    rw [clamp100_eq_0]
    norm_num
  refine ⟨?_, ?_, ?_⟩
  · simp [ex_run, ex_step_count, h100, h0, initExState]
  · simp [ex_run, ex_step_rep_times, initExState, start_session, initAnalytics]
  · rw [runFrames_rep_times_over20]
    · rfl
    · intro f hf
      fin_cases hf <;> norm_num [visFrame]

/-- C4: a frame rejected by the visibility gate leaves `count` and
`direction` unchanged and yields a result with `form_ok = false` and a
non-empty feedback string. -/
theorem claim4_frame_skip_safety (s : CounterState) (f : Frame)
    (h : (check_visibility f.t f.lm_list s.analytics).1 = false) :
    (count_squats s f).1.count = s.count ∧
    (count_squats s f).1.direction = s.direction ∧
    (count_squats s f).2.form_ok = false ∧
    (count_squats s f).2.feedback ≠ "" := by
  rcases hcv : check_visibility f.t f.lm_list s.analytics with ⟨b, a1⟩
  rw [hcv] at h
  cases b with
  | true => exact absurd h (by simp)
  | false =>
      refine ⟨?_, ?_, ?_, ?_⟩ <;> simp [count_squats, hcv]

theorem claim4_frame_skip_safety_wit :
    (count_squats (initCounter 0) ⟨0, [], 50, true, true⟩).1.count = (initCounter 0).count ∧
    (count_squats (initCounter 0) ⟨0, [], 50, true, true⟩).1.direction = (initCounter 0).direction ∧
    (count_squats (initCounter 0) ⟨0, [], 50, true, true⟩).2.form_ok = false ∧
    (count_squats (initCounter 0) ⟨0, [], 50, true, true⟩).2.feedback ≠ "" :=
  claim4_frame_skip_safety (initCounter 0) ⟨0, [], 50, true, true⟩ (by decide)

/-- C7: the two variants keep their divergent conventions.  The squat counter
of `src/squat_counter.py` transitions to squatting at percentage at least 80
without counting, and counts exactly one full rep on the return transition at
percentage at most 20; the push-up loop adds half a rep at each of its
symmetric thresholds, percentage at least 95 (direction 0) and percentage at
most 5 (direction 1). -/
theorem claim7_conventions :
    (∀ s f, squat_visible s f → s.direction = 0 → (80:ℚ) ≤ f.per →
        (count_squats s f).1.count = s.count ∧ (count_squats s f).1.direction = 1)
  ∧ (∀ s f, squat_visible s f → s.direction = 1 → f.per ≤ (20:ℚ) →
        (count_squats s f).1.count = s.count + 1 ∧ (count_squats s f).1.direction = 0)
  ∧ (∀ s p, s.dir = 0 → (95:ℚ) ≤ p →
        pushup_step s p = { count := s.count + 1/2, dir := 1 })
  ∧ (∀ s p, s.dir = 1 → p ≤ (5:ℚ) →
        pushup_step s p = { count := s.count + 1/2, dir := 0 }) := by
  refine ⟨?_, ?_, ?_, ?_⟩
  · intro s f hv hd hp
    constructor
    · rw [count_squats_count, if_neg]
      rintro ⟨-, hp20, -⟩
      linarith
    · rw [count_squats_direction, if_pos hv, if_neg, if_pos ⟨hp, hd⟩]
      rintro ⟨hp20, -⟩
      linarith
  · intro s f hv hd hp
    constructor
    · rw [count_squats_count, if_pos ⟨hv, hp, hd⟩]
    · rw [count_squats_direction, if_pos hv, if_pos ⟨hp, hd⟩]
  · intro s p hd hp
    unfold pushup_step
    rw [if_pos ((pushup_clamp_ge95 p).mpr hp), if_pos hd]
  · intro s p hd hp
    unfold pushup_step
    rw [if_neg, if_pos ((pushup_clamp_le5 p).mpr hp), if_pos hd]
    rw [pushup_clamp_ge95]
    linarith

theorem claim7_conventions_wit :
    ((count_squats (initCounter 0) (visFrame 1 85)).1.count = (initCounter 0).count ∧
     (count_squats (initCounter 0) (visFrame 1 85)).1.direction = 1) ∧
    (pushup_step { count := 0, dir := 0 } 96 = { count := 0 + 1/2, dir := 1 }) :=
  ⟨claim7_conventions.1 (initCounter 0) (visFrame 1 85)
      (squat_visible_visFrame (initCounter 0) 1 85) rfl (by norm_num [visFrame]),
   claim7_conventions.2.2.1 { count := 0, dir := 0 } 96 rfl (by norm_num)⟩

/-- C8: `get_stats` returns the explicit empty result exactly when no rep has
been recorded, and a populated record (with `total_reps` the length of the
history) whenever at least one rep is recorded. -/
theorem claim8_stats_empty :
    (∀ now a, get_stats now a = none ↔ a.rep_times = [])
  ∧ (∀ now a, a.rep_times ≠ [] →
      ∃ st, get_stats now a = some st ∧ st.total_reps = a.rep_times.length) := by
  constructor
  · intro now a
    constructor
    · intro h
      by_contra hne
      unfold get_stats at h
      rw [if_neg hne] at h
      simp at h
    · intro h
      unfold get_stats
      rw [if_pos h]
  · intro now a h
    unfold get_stats
    rw [if_neg h]
    exact ⟨_, rfl, rfl⟩

theorem claim8_stats_empty_wit :
    (add_rep 3 50 true initAnalytics).rep_times ≠ [] ∧
    ∃ st, get_stats 10 (add_rep 3 50 true initAnalytics) = some st ∧
      st.total_reps = (add_rep 3 50 true initAnalytics).rep_times.length :=
  ⟨by decide, claim8_stats_empty.2 10 _ (by decide)⟩

/-- C9: audible alerts are rate-limited.  In any run of feedback events from
a fresh analytics object, consecutive emitted beeps are separated by more
than the default one-second cooldown; in the concrete scenario two distinct
fresh messages arriving within one cooldown window produce exactly one beep,
a third message after the window produces the second beep, and all three
messages — including the one whose beep was suppressed — are recorded for
display. -/
theorem claim9_alert_rate_limit :
    (∀ events, List.Chain' (fun x y => (1:ℚ) < y - x)
        (processFeedback initAnalytics events).beep_times)
  ∧ (processFeedback initAnalytics
        [(2, "Keep back straight"), (5/2, "Align knees with feet"),
         (4, "Please ensure full body is visible")]).beep_times = [2, 4]
  ∧ (processFeedback initAnalytics
        [(2, "Keep back straight"), (5/2, "Align knees with feet"),
         (4, "Please ensure full body is visible")]).feedback_messages
      = ["Keep back straight", "Align knees with feet", "Please ensure full body is visible"] :=
  ⟨fun events => (processFeedback_inv 1 initAnalytics events initAnalytics_inv).2.1,
   by norm_num +decide [processFeedback, add_feedback, play_beep, initAnalytics],
   by norm_num +decide [processFeedback, add_feedback, play_beep, initAnalytics]⟩

/-- C5 (divergence witness): for a perfectly vertical torso in image
coordinates — shoulder midpoint (0, 0) directly above hip midpoint (0, 1) —
the back check of `src/squat_counter.py` computes
`abs(degrees(atan2(-1, 0)) - 90) = 180` and therefore fails the `angle < 15`
test, even though the segment is 0 degrees from vertical. -/
theorem claim5_back_check_vertical :
    back_angle (0, 0) (0, 0) (0, 1) (0, 1) = 180 ∧
    ¬ back_angle_ok (0, 0) (0, 0) (0, 1) (0, 1) := by
  have h : back_angle (0, 0) (0, 0) (0, 1) (0, 1) = 180 := by
    simp only [back_angle]
    norm_num
    rw [atan2_neg_one_zero]
    have hval : -(Real.pi / 2) * 180 / Real.pi - 90 = -180 := by
      field_simp
      ring
    rw [hval, abs_neg, abs_of_nonneg (by norm_num : (0:ℝ) ≤ 180)]
  refine ⟨h, ?_⟩
  unfold back_angle_ok
  rw [h]
  norm_num

/-- C6 (amended): the `calculate_angle` implementations return the absolute
bearing difference folded into the interval from 0 to 180 — the result always
lies in that interval — and the two reference evaluations hold exactly:
90 degrees at ((1,0),(0,0),(0,1)) and 180 degrees at ((1,0),(0,0),(-1,0)). -/
theorem claim6_calculate_angle :
    (∀ a b c : ℝ × ℝ, 0 ≤ calculate_angle a b c ∧ calculate_angle a b c ≤ 180)
  ∧ calculate_angle (1, 0) (0, 0) (0, 1) = 90
  ∧ calculate_angle (1, 0) (0, 0) (-1, 0) = 180 := by
  have hπ : Real.pi ≠ 0 := Real.pi_ne_zero
  refine ⟨?_, ?_, ?_⟩
  · intro a b c
    simp only [calculate_angle]
    set u := atan2 (c.2 - b.2) (c.1 - b.1) with hu
    set v := atan2 (a.2 - b.2) (a.1 - b.1) with hv
    have hu1 : u ≤ Real.pi := atan2_le_pi _ _
    have hu2 : -Real.pi < u := neg_pi_lt_atan2 _ _
    have hv1 : v ≤ Real.pi := atan2_le_pi _ _
    have hv2 : -Real.pi < v := neg_pi_lt_atan2 _ _
    have hπ0 := Real.pi_pos
    have h0 : 0 ≤ |(u - v) * 180 / Real.pi| := abs_nonneg _
    have habs : |(u - v) * 180 / Real.pi| < 360 := by
      rw [abs_div, abs_of_pos hπ0, div_lt_iff₀ hπ0, abs_mul]
      have h1 : |u - v| < 2 * Real.pi := by
        rw [abs_lt]
        exact ⟨by linarith, by linarith⟩
      have h2 : |(180:ℝ)| = 180 := by norm_num
      rw [h2]
      have := mul_lt_mul_of_pos_right h1 (show (0:ℝ) < 180 by norm_num)
      linarith
    split_ifs with hcase
    · exact ⟨by linarith, by linarith⟩
    · exact ⟨h0, not_lt.mp hcase⟩
  · simp only [calculate_angle]
    norm_num
    rw [atan2_one_zero, atan2_zero_one, sub_zero]
    have h90 : Real.pi / 2 * 180 / Real.pi = 90 := by
      field_simp
      ring
    rw [h90, abs_of_nonneg (by norm_num : (0:ℝ) ≤ 90), if_neg (by norm_num)]
  · simp only [calculate_angle]
    norm_num
    rw [atan2_zero_neg_one, atan2_zero_one, sub_zero]
    have h180 : Real.pi * 180 / Real.pi = 180 := by
      field_simp
    rw [h180, abs_of_nonneg (by norm_num : (0:ℝ) ≤ 180), if_neg (by norm_num)]

/-- C6 (counterexample): the push-up script's `findAngle` lacks the second
fold after negating a negative difference, so with the three points
(-1,0), (0,0), (0,-1) — bearings 180 and -90 degrees, raw difference -270 —
it returns 270, outside the interval from 0 to 180. -/
theorem claim6_findAngle_out_of_range :
    findAngle (-1, 0) (0, 0) (0, -1) = 270 ∧
    ¬ (findAngle (-1, 0) (0, 0) (0, -1) ≤ 180) := by
  have hπ : Real.pi ≠ 0 := Real.pi_ne_zero
  have h : findAngle (-1, 0) (0, 0) (0, -1) = 270 := by
    simp only [findAngle]
    norm_num
    rw [atan2_neg_one_zero, atan2_zero_neg_one]
    have hval : (-(Real.pi / 2) - Real.pi) * 180 / Real.pi = -270 := by
      field_simp
      ring
    rw [hval, if_neg (by norm_num), if_pos (by norm_num)]
    norm_num
  exact ⟨h, by rw [h]; norm_num⟩

/-- C10: the joint-angle computation is symmetric in its endpoint arguments:
swapping the first and third point leaves `calculate_angle` unchanged. -/
theorem claim10_angle_symmetric (a b c : ℝ × ℝ) :
    calculate_angle a b c = calculate_angle c b a := by
  simp only [calculate_angle]
  have h : |(atan2 (a.2 - b.2) (a.1 - b.1) - atan2 (c.2 - b.2) (c.1 - b.1)) * 180 / Real.pi|
      = |(atan2 (c.2 - b.2) (c.1 - b.1) - atan2 (a.2 - b.2) (a.1 - b.1)) * 180 / Real.pi| := by
    rw [show (atan2 (a.2 - b.2) (a.1 - b.1) - atan2 (c.2 - b.2) (c.1 - b.1)) * 180 / Real.pi
        = -((atan2 (c.2 - b.2) (c.1 - b.1) - atan2 (a.2 - b.2) (a.1 - b.1)) * 180 / Real.pi)
        from by ring, abs_neg]
  rw [h]
